import Mathlib

/-!
# Product handlers of the sales API

A shallow embedding of `cmd/sales-api/internal/handlers/products.go`.

The five handlers are straight-line programs over three collaborators that the
file only calls: the request codec (`web.Decode`, `web.Encode`), the data access
layer (`products.Create`, `products.List`, `products.Get`, `products.AddSale`,
`products.ListSales`) and the router (`chi`).  The collaborators are parameters
of the model (`Env`); every handler returns, next to its Go result, the list of
collaborator calls it made together with what each call returned.
-/

namespace Handlers

/-! ## Errors (`github.com/pkg/errors`) -/

/-- Go error values.  `leaf` is an error without a cause (for instance a sentinel
such as the store's not-found error), `wrapped` is what `errors.Wrap` builds.
The stack trace that `errors.Wrap` records is not part of the model. -/
inductive Error where
  | leaf (msg : String)
  | wrapped (cause : Error) (msg : String)
deriving DecidableEq, Repr

/-- The `Error()` method: a wrapped error prints its message, a colon and the
text of its cause. -/
def Error.text : Error → String
  | .leaf msg => msg
  | .wrapped cause msg => msg ++ ": " ++ cause.text

/-- The call `errors.Wrap(err, message)` for a non-nil `err`. -/
def Wrap (err : Error) (message : String) : Error :=
  .wrapped err message

/-- The call `errors.Cause(err)`: unwinds every wrapping layer down to the root. -/
def Cause : Error → Error
  | .leaf msg => .leaf msg
  | .wrapped cause _ => Cause cause

/-! ## The verb `%q` of package `fmt` (`strconv.Quote`) -/

/-- One digit of `strconv`'s table `lowerhex`. -/
def lowerhex (n : Nat) : Char :=
  "0123456789abcdef".toList.getD (n % 16) '0'

/-- The function `strconv.IsPrint`.  Latin-1 is decided inline as in the library;
`table` stands for the library's Unicode tables above U+00FF. -/
def IsPrint (table : Char → Bool) (c : Char) : Bool :=
  let r := c.toNat
  if r ≤ 0xFF then
    if 0x20 ≤ r ∧ r ≤ 0x7E then true
    else if 0xA1 ≤ r ∧ r ≤ 0xFF then r != 0xAD
    else false
  else table c

/-- The function `strconv.appendEscapedRune` with a double quote as quote
character, `ASCIIonly` and `graphicOnly` off. -/
def appendEscapedRune (table : Char → Bool) (c : Char) : List Char :=
  let r := c.toNat
  if r = 34 ∨ r = 92 then [Char.ofNat 92, c]
  else if IsPrint table c then [c]
  else if r = 7 then [Char.ofNat 92, 'a']
  else if r = 8 then [Char.ofNat 92, 'b']
  else if r = 12 then [Char.ofNat 92, 'f']
  else if r = 10 then [Char.ofNat 92, 'n']
  else if r = 13 then [Char.ofNat 92, 'r']
  else if r = 9 then [Char.ofNat 92, 't']
  else if r = 11 then [Char.ofNat 92, 'v']
  else if r < 0x20 ∨ r = 0x7F then
    [Char.ofNat 92, 'x', lowerhex (r / 16), lowerhex r]
  else if r < 0x10000 then
    [Char.ofNat 92, 'u', lowerhex (r / 4096), lowerhex (r / 256), lowerhex (r / 16), lowerhex r]
  else
    [Char.ofNat 92, 'U', lowerhex (r / 268435456), lowerhex (r / 16777216),
      lowerhex (r / 1048576), lowerhex (r / 65536), lowerhex (r / 4096), lowerhex (r / 256),
      lowerhex (r / 16), lowerhex r]

/-- The function `strconv.Quote`, which is what `%q` prints for a string: the
escaped runes between two double quotes.  Strings here are valid UTF-8, so the
library's branch for an invalid byte does not occur. -/
def Quote (table : Char → Bool) (s : String) : String :=
  String.mk (Char.ofNat 34 :: (s.toList.flatMap (appendEscapedRune table) ++ [Char.ofNat 34]))

/-- The call `errors.Wrapf(err, "getting product %q", id)`. -/
def WrapfGettingProduct (table : Char → Bool) (err : Error) (id : String) : Error :=
  .wrapped err ("getting product " ++ Quote table id)

/-! ## Data model -/

/-- Modelled from the spec: the type `products.Product` is declared in the data
access package; it has an identifier, descriptive fields (name, cost, quantity)
and timestamps for creation and update. -/
structure Product where
  ID : String
  Name : String
  Cost : Int
  Quantity : Int
  DateCreated : Nat
  DateUpdated : Nat
deriving DecidableEq, Repr

/-- Modelled from the spec: the type `products.Sale` is declared in the data
access package; it has an identifier, the reference to its product (the field
`ProductID` that `AddSale` assigns), quantity and amount fields and a
timestamp. -/
structure Sale where
  ID : String
  ProductID : String
  Quantity : Int
  Amount : Int
  DateCreated : Nat
deriving DecidableEq, Repr

/-- The zero value of `var p products.Product`. -/
def zeroProduct : Product :=
  { ID := "", Name := "", Cost := 0, Quantity := 0, DateCreated := 0, DateUpdated := 0 }

/-- The zero value of `var sale products.Sale`. -/
def zeroSale : Sale :=
  { ID := "", ProductID := "", Quantity := 0, Amount := 0, DateCreated := 0 }

/-- The five handler methods of `Products`. -/
inductive HandlerName where
  | Create
  | List
  | Get
  | AddSale
  | ListSales
deriving DecidableEq, Repr

/-- One binding of the router: method, path pattern and the handler bound by
`web.Run`. -/
structure Route where
  method : String
  pattern : String
  handler : HandlerName
deriving DecidableEq, Repr

/-- The router `*chi.Mux` as far as this file uses it: the bindings in the order
in which they were registered. -/
abbrev Router := List Route

/-- The call `chi.NewRouter()`. -/
def NewRouter : Router := []

/-- The method `r.Post(pattern, h)`. -/
def Router.Post (r : Router) (pattern : String) (h : HandlerName) : Router :=
  r ++ [{ method := "POST", pattern := pattern, handler := h }]

/-- The method `r.Get(pattern, h)`. -/
def Router.Get (r : Router) (pattern : String) (h : HandlerName) : Router :=
  r ++ [{ method := "GET", pattern := pattern, handler := h }]

/-- The handler bound to a method and a path pattern, if any. -/
def Router.bound (r : Router) (method pattern : String) : Option HandlerName :=
  (r.find? (fun b => b.method == method && b.pattern == pattern)).map Route.handler

/-- The struct `Products`: the database handle, the logger and the embedded
`http.Handler` (nil, or the router). -/
structure Products where
  db : Nat
  log : Nat
  Handler : Option Router
deriving DecidableEq, Repr

/-- The constructor `NewProducts`. -/
def NewProducts (db : Nat) (log : Nat) : Products :=
  let p : Products := { db := db, log := log, Handler := none }
  let r := NewRouter
  let r := r.Post "/v1/products" .Create
  let r := r.Get "/v1/products" .List
  let r := r.Get "/v1/products/{id}" .Get
  let r := r.Post "/v1/products/{id}/sales" .AddSale
  let r := r.Get "/v1/products/{id}/sales" .ListSales
  let p := { p with Handler := some r }
  p

/-- The handler that the set serves a method and path pattern with: `Products`
embeds `http.Handler`, so serving a request goes through the embedded router. -/
def Products.serves (s : Products) (method pattern : String) : Option HandlerName :=
  match s.Handler with
  | none => none
  | some r => r.bound method pattern

/-- An incoming request: its context, its body and the path parameters that the
router extracted (keys and values in the order of extraction). -/
structure Request where
  ctx : Nat
  body : String
  URLParams : List (String × String)
deriving DecidableEq, Repr

/-- The function `chi.URLParam`: the value of the last parameter with that key,
the empty string when there is none. -/
def URLParam (r : Request) (key : String) : String :=
  match r.URLParams.reverse.find? (fun kv => kv.1 == key) with
  | some kv => kv.2
  | none => ""

/-- The constant `http.StatusOK`. -/
def StatusOK : Nat := 200

/-- The constant `http.StatusCreated`. -/
def StatusCreated : Nat := 201

/-! ## Collaborators and instrumented runs -/

/-- A value handed to `web.Encode`, and a value a store operation produces. In
the sequences the store's order is the order of the list. -/
inductive Payload where
  | product (p : Product)
  | products (l : List Product)
  | sale (s : Sale)
  | sales (l : List Sale)
deriving DecidableEq, Repr

/-- A call of the data access layer with its arguments. -/
inductive StoreOp where
  | Create (p : Product)
  | List
  | Get (id : String)
  | AddSale (s : Sale)
  | ListSales (id : String)
deriving DecidableEq, Repr

/-- What the argument of `web.Decode` points to. -/
inductive DecodeTarget where
  | product
  | sale
  | receiver
deriving DecidableEq, Repr

/-- One collaborator call of a run, with what the call returned. -/
inductive Event where
  | decode (target : DecodeTarget) (err : Option Error)
  | store (op : StoreOp) (out : Payload) (err : Option Error)
  | encode (v : Payload) (status : Nat) (err : Option Error)
deriving DecidableEq, Repr

/-- Whether the event is a call of the data access layer. -/
def Event.isStore : Event → Bool
  | .store _ _ _ => true
  | _ => false

/-- Whether the event is a call of `web.Encode`. -/
def Event.isEncode : Event → Bool
  | .encode _ _ _ => true
  | _ => false

/-- Whether the event is a call of `web.Decode`. -/
def Event.isDecode : Event → Bool
  | .decode _ _ => true
  | _ => false

/-- The collaborators.  `σ` is the state of the database, `ω` the state of the
response writer.

`web.Decode(r, val)` takes its target as `interface{}`: there is one component
per target type.  `DecodeProduct` is the call with a `*products.Product`,
`DecodeReceiver` the call with a `**Products` (the pointer is nil or points to
the shared handler set; a non-nil pointer is followed, so what is written
lands in the shared value), `DecodeSale` the call with a `*products.Sale`.  A
decode returns the target as it left it and its error.

A store operation gets the database state, the request context, the handle
`s.db` and its arguments and returns the new database state, the value it
produced and its error.  `Encode` gets the response writer, the value and the
status.  `isPrint` stands for the Unicode tables of `strconv`. -/
structure Env (σ ω : Type) where
  isPrint : Char → Bool
  DecodeProduct : Request → Product → Product × Option Error
  DecodeSale : Request → Sale → Sale × Option Error
  DecodeReceiver : Request → Option Products → Option Products × Option Error
  storeCreate : σ → Nat → Nat → Product → σ × Product × Option Error
  storeList : σ → Nat → Nat → σ × List Product × Option Error
  storeGet : σ → Nat → Nat → String → σ × Product × Option Error
  storeAddSale : σ → Nat → Nat → Sale → σ × Sale × Option Error
  storeListSales : σ → Nat → Nat → String → σ × List Sale × Option Error
  Encode : ω → Payload → Nat → ω × Option Error

/-- Everything a handler can touch: the database, the response writer of the
request and the `Products` value shared by all requests. -/
structure World (σ ω : Type) where
  store : σ
  resp : ω
  recv : Products

/-- How a handler ends: it returns its `error` (nil is `none`), or it panics. -/
inductive Result where
  | returned (err : Option Error)
  | panicked
deriving DecidableEq, Repr

/-- A run of a handler: the world after it, the collaborator calls in order, and
how it ended. -/
structure Outcome (σ ω : Type) where
  world : World σ ω
  calls : List Event
  result : Result

/-! ## The handlers -/

/-- The method `Create`: decode the body into a fresh product, have the store
create it, encode the completed product with status 201. -/
def Products.Create {σ ω : Type} (env : Env σ ω) (w : World σ ω) (r : Request) : Outcome σ ω :=
  let p := zeroProduct
  match env.DecodeProduct r p with
  | (_, some err) =>
    { world := w, calls := [.decode .product (some err)],
      result := .returned (some (Wrap err "decoding new product")) }
  | (p, none) =>
    match env.storeCreate w.store r.ctx w.recv.db p with
    | (st, p', some err) =>
      { world := { w with store := st },
        calls := [.decode .product none, .store (.Create p) (.product p') (some err)],
        result := .returned (some (Wrap err "creating new product")) }
    | (st, p', none) =>
      match env.Encode w.resp (.product p') StatusCreated with
      | (rw, eerr) =>
        { world := { w with store := st, resp := rw },
          calls := [.decode .product none, .store (.Create p) (.product p') none,
            .encode (.product p') StatusCreated eerr],
          result := .returned eerr }

/-- The method `List`: ask the store for all products and encode the sequence
with status 200. -/
def Products.List {σ ω : Type} (env : Env σ ω) (w : World σ ω) (r : Request) : Outcome σ ω :=
  match env.storeList w.store r.ctx w.recv.db with
  | (st, list, some err) =>
    { world := { w with store := st },
      calls := [.store .List (.products list) (some err)],
      result := .returned (some (Wrap err "getting product list")) }
  | (st, list, none) =>
    match env.Encode w.resp (.products list) StatusOK with
    | (rw, eerr) =>
      { world := { w with store := st, resp := rw },
        calls := [.store .List (.products list) none, .encode (.products list) StatusOK eerr],
        result := .returned eerr }

/-- The method `Get`: read the path parameter `id`, ask the store for that
product and encode it with status 200. -/
def Products.Get {σ ω : Type} (env : Env σ ω) (w : World σ ω) (r : Request) : Outcome σ ω :=
  let id := URLParam r "id"
  match env.storeGet w.store r.ctx w.recv.db id with
  | (st, p, some err) =>
    { world := { w with store := st },
      calls := [.store (.Get id) (.product p) (some err)],
      result := .returned (some (WrapfGettingProduct env.isPrint err id)) }
  | (st, p, none) =>
    match env.Encode w.resp (.product p) StatusOK with
    | (rw, eerr) =>
      { world := { w with store := st, resp := rw },
        calls := [.store (.Get id) (.product p) none, .encode (.product p) StatusOK eerr],
        result := .returned eerr }

/-- The method `AddSale`.  The local `sale` starts as the zero value; the decode
call is given `&s`, the address of the receiver pointer, not `&sale`.  After a
decode without error the product reference of `sale` is set from the path
parameter, the store is called through `s.db` (a panic when the decode left `s`
nil) and the sale as the store completed it is encoded with status 201. -/
def Products.AddSale {σ ω : Type} (env : Env σ ω) (w : World σ ω) (r : Request) : Outcome σ ω :=
  let sale := zeroSale
  match env.DecodeReceiver r (some w.recv) with
  | (s, some err) =>
    { world := { w with recv := s.getD w.recv },
      calls := [.decode .receiver (some err)],
      result := .returned (some (Wrap err "decoding new sale")) }
  | (none, none) =>
    { world := w, calls := [.decode .receiver none], result := .panicked }
  | (some s, none) =>
    let sale := { sale with ProductID := URLParam r "id" }
    match env.storeAddSale w.store r.ctx s.db sale with
    | (st, sale', some err) =>
      { world := { w with store := st, recv := s },
        calls := [.decode .receiver none, .store (.AddSale sale) (.sale sale') (some err)],
        result := .returned (some (Wrap err "adding new sale")) }
    | (st, sale', none) =>
      match env.Encode w.resp (.sale sale') StatusCreated with
      | (rw, eerr) =>
        { world := { store := st, resp := rw, recv := s },
          calls := [.decode .receiver none, .store (.AddSale sale) (.sale sale') none,
            .encode (.sale sale') StatusCreated eerr],
          result := .returned eerr }

/-- The method `ListSales`: read the path parameter `id`, ask the store for the
sales of that product and encode the sequence with status 200. -/
def Products.ListSales {σ ω : Type} (env : Env σ ω) (w : World σ ω) (r : Request) :
    Outcome σ ω :=
  let id := URLParam r "id"
  match env.storeListSales w.store r.ctx w.recv.db id with
  | (st, list, some err) =>
    { world := { w with store := st },
      calls := [.store (.ListSales id) (.sales list) (some err)],
      result := .returned (some (Wrap err "getting sales list")) }
  | (st, list, none) =>
    match env.Encode w.resp (.sales list) StatusOK with
    | (rw, eerr) =>
      { world := { w with store := st, resp := rw },
        calls := [.store (.ListSales id) (.sales list) none,
          .encode (.sales list) StatusOK eerr],
        result := .returned eerr }

/-- A run of the handler with the given name. -/
def run {σ ω : Type} (env : Env σ ω) (h : HandlerName) (w : World σ ω) (r : Request) :
    Outcome σ ω :=
  match h with
  | .Create => Products.Create env w r
  | .List => Products.List env w r
  | .Get => Products.Get env w r
  | .AddSale => Products.AddSale env w r
  | .ListSales => Products.ListSales env w r

/-! ## Tables of the interface -/

/-- The context text a handler puts on an error of its store call. -/
def storeContext (table : Char → Bool) (h : HandlerName) (r : Request) : String :=
  match h with
  | .Create => "creating new product"
  | .List => "getting product list"
  | .Get => "getting product " ++ Quote table (URLParam r "id")
  | .AddSale => "adding new sale"
  | .ListSales => "getting sales list"

/-- The context text of a store error with the id of `Get` appended as it is,
without quoting. -/
def plainStoreContext (h : HandlerName) (r : Request) : String :=
  match h with
  | .Create => "creating new product"
  | .List => "getting product list"
  | .Get => "getting product " ++ URLParam r "id"
  | .AddSale => "adding new sale"
  | .ListSales => "getting sales list"

/-- The context text a handler puts on an error of its decode call (only `Create`
and `AddSale` decode a body). -/
def decodeContext (h : HandlerName) : String :=
  match h with
  | .Create => "decoding new product"
  | .AddSale => "decoding new sale"
  | _ => ""

/-- The success status of each route in the interface table. -/
def tableStatus (h : HandlerName) : Nat :=
  match h with
  | .Create => 201
  | .List => 200
  | .Get => 200
  | .AddSale => 201
  | .ListSales => 200

/-! ## A sample environment

A small codec and an in-memory store, used to evaluate the handlers on concrete
requests. -/

/-- A response writer: whether the connection is gone, and what was written. -/
structure Writer where
  closed : Bool
  written : List (Payload × Nat)
deriving DecidableEq, Repr

/-- An in-memory database. -/
structure Database where
  products : List Product
  sales : List Sale
deriving DecidableEq, Repr

/-- The store's sentinel for a product that does not exist. -/
def ErrNotFound : Error := .leaf "product not found"

/-- The body of a new product. -/
def widgetBody : String := "\x7b\"name\":\"widget\",\"cost\":10,\"quantity\":5\x7d"

/-- The body of a new sale. -/
def saleBody : String := "\x7b\"quantity\":2\x7d"

/-- A body that names the exported embedded field of `Products`. -/
def handlerNullBody : String := "\x7b\"Handler\":null\x7d"

/-- The sample collaborators.  The codec knows the three bodies above and the
body `null`, and treats its targets as a JSON decoder does: fields the target
does not have are skipped, `null` for a field or for the whole target clears it,
anything else is a syntax error. -/
def sampleEnv : Env Database Writer where
  isPrint := fun _ => true
  DecodeProduct := fun r p =>
    if r.body = widgetBody then ({ p with Name := "widget", Cost := 10, Quantity := 5 }, none)
    else if r.body = saleBody then ({ p with Quantity := 2 }, none)
    else if r.body = handlerNullBody ∨ r.body = "null" then (p, none)
    else (p, some (.leaf "invalid character"))
  DecodeSale := fun r s =>
    if r.body = saleBody then ({ s with Quantity := 2 }, none)
    else if r.body = widgetBody then ({ s with Quantity := 5 }, none)
    else if r.body = handlerNullBody ∨ r.body = "null" then (s, none)
    else (s, some (.leaf "invalid character"))
  DecodeReceiver := fun r s =>
    if r.body = "null" then (none, none)
    else if r.body = handlerNullBody then (s.map (fun p => { p with Handler := none }), none)
    else if r.body = saleBody ∨ r.body = widgetBody then (s, none)
    else (s, some (.leaf "invalid character"))
  storeCreate := fun st _ _ p =>
    let p' := { p with ID := "p" ++ toString (st.products.length + 1), DateCreated := 1,
                       DateUpdated := 1 }
    ({ st with products := st.products ++ [p'] }, p', none)
  storeList := fun st _ _ => (st, st.products, none)
  storeGet := fun st _ _ id =>
    match st.products.find? (fun p => p.ID == id) with
    | some p => (st, p, none)
    | none => (st, zeroProduct, some ErrNotFound)
  storeAddSale := fun st _ _ s =>
    if st.products.any (fun p => p.ID == s.ProductID) then
      let s' := { s with ID := "s" ++ toString (st.sales.length + 1), DateCreated := 1 }
      ({ st with sales := st.sales ++ [s'] }, s', none)
    else (st, s, some (.leaf "foreign key violation"))
  storeListSales := fun st _ _ id => (st, st.sales.filter (fun s => s.ProductID == id), none)
  Encode := fun rw v status =>
    if rw.closed then (rw, some (.leaf "write: broken pipe"))
    else ({ rw with written := rw.written ++ [(v, status)] }, none)

/-- The sample collaborators with the database down: every store operation
returns an error and produces nothing. -/
def downEnv : Env Database Writer :=
  { sampleEnv with
    storeCreate := fun st _ _ p => (st, p, some (.leaf "connection refused"))
    storeList := fun st _ _ => (st, [], some (.leaf "connection refused"))
    storeGet := fun st _ _ _ => (st, zeroProduct, some (.leaf "connection refused"))
    storeAddSale := fun st _ _ s => (st, s, some (.leaf "connection refused"))
    storeListSales := fun st _ _ _ => (st, [], some (.leaf "connection refused")) }

/-- The product that the sample database holds. -/
def widget : Product :=
  { ID := "p1", Name := "widget", Cost := 10, Quantity := 5, DateCreated := 1, DateUpdated := 1 }

/-- A world with one product, no sale, an open response writer and the handler
set that `NewProducts` builds. -/
def sampleWorld : World Database Writer :=
  { store := { products := [widget], sales := [] },
    resp := { closed := false, written := [] },
    recv := NewProducts 1 1 }

/-- The sample world with the client gone: every write fails. -/
def closedWorld : World Database Writer :=
  { sampleWorld with resp := { closed := true, written := [] } }

/-- A request with the given body and path parameter `id`. -/
def request (body id : String) : Request :=
  { ctx := 0, body := body, URLParams := [("id", id)] }

/-! ## Shared lemmas -/

theorem Cause_Wrap (e : Error) (msg : String) : Cause (Wrap e msg) = Cause e := rfl

theorem text_Wrap (e : Error) (msg : String) : (Wrap e msg).text = msg ++ ": " ++ e.text := rfl

/-- The calls and the result of every run, handler by handler and case by case:
the trace is the decode call (for `Create` and `AddSale`) followed by at most one
store call followed by at most one encode call. -/
theorem run_cases {σ ω : Type} (env : Env σ ω) (h : HandlerName) (w : World σ ω) (r : Request) :
    (∃ t e, (h = .Create ∨ h = .AddSale) ∧
        (run env h w r).calls = [.decode t (some e)] ∧
        (run env h w r).result = .returned (some (Wrap e (decodeContext h))) ∧
        (run env h w r).world.store = w.store ∧ (run env h w r).world.resp = w.resp) ∨
    ((h = .AddSale) ∧ (run env h w r).calls = [.decode .receiver none] ∧
        (run env h w r).result = .panicked ∧ (run env h w r).world = w) ∨
    (∃ pre op out e, (pre = [] ∨ ∃ t, pre = [.decode t none]) ∧
        (run env h w r).calls = pre ++ [.store op out (some e)] ∧
        (run env h w r).result = .returned (some (Wrap e (storeContext env.isPrint h r))) ∧
        (run env h w r).world.resp = w.resp) ∨
    (∃ pre op out eerr, (pre = [] ∨ ∃ t, pre = [.decode t none]) ∧
        (run env h w r).calls =
          pre ++ [.store op out none, .encode out (tableStatus h) eerr] ∧
        (run env h w r).result = .returned eerr) := by
  cases h
  · rcases hd : env.DecodeProduct r zeroProduct with ⟨p, _ | e⟩
    · rcases hs : env.storeCreate w.store r.ctx w.recv.db p with ⟨st, p', _ | e⟩
      · right; right; right
        simp only [run, Products.Create, hd, hs]
        exact ⟨_, _, _, _, Or.inr ⟨_, rfl⟩, rfl, rfl⟩
      · right; right; left
        simp only [run, Products.Create, hd, hs]
        exact ⟨_, _, _, _, Or.inr ⟨_, rfl⟩, rfl, rfl, trivial⟩
    · left
      simp only [run, Products.Create, hd]
      exact ⟨_, _, by simp, rfl, rfl, trivial, trivial⟩
  · rcases hs : env.storeList w.store r.ctx w.recv.db with ⟨st, l, _ | e⟩
    · right; right; right
      simp only [run, Products.List, hs]
      exact ⟨[], _, _, _, Or.inl rfl, rfl, rfl⟩
    · right; right; left
      simp only [run, Products.List, hs]
      exact ⟨[], _, _, _, Or.inl rfl, rfl, rfl, trivial⟩
  · rcases hs : env.storeGet w.store r.ctx w.recv.db (URLParam r "id") with ⟨st, p, _ | e⟩
    · right; right; right
      simp only [run, Products.Get, hs]
      exact ⟨[], _, _, _, Or.inl rfl, rfl, rfl⟩
    · right; right; left
      simp only [run, Products.Get, hs]
      exact ⟨[], _, _, _, Or.inl rfl, rfl, rfl, trivial⟩
  · rcases hd : env.DecodeReceiver r (some w.recv) with ⟨_ | s, _ | e⟩
    · right; left
      simp only [run, Products.AddSale, hd]
      exact ⟨trivial, trivial, trivial, trivial⟩
    · left
      simp only [run, Products.AddSale, hd]
      exact ⟨_, _, by simp, rfl, rfl, trivial, trivial⟩
    · rcases hs : env.storeAddSale w.store r.ctx s.db
        { zeroSale with ProductID := URLParam r "id" } with ⟨st, sale', _ | e⟩
      · right; right; right
        simp only [run, Products.AddSale, hd, hs]
        exact ⟨_, _, _, _, Or.inr ⟨_, rfl⟩, rfl, rfl⟩
      · right; right; left
        simp only [run, Products.AddSale, hd, hs]
        exact ⟨_, _, _, _, Or.inr ⟨_, rfl⟩, rfl, rfl, trivial⟩
    · left
      simp only [run, Products.AddSale, hd]
      exact ⟨_, _, by simp, rfl, rfl, trivial, trivial⟩
  · rcases hs : env.storeListSales w.store r.ctx w.recv.db (URLParam r "id") with ⟨st, l, _ | e⟩
    · right; right; right
      simp only [run, Products.ListSales, hs]
      exact ⟨[], _, _, _, Or.inl rfl, rfl, rfl⟩
    · right; right; left
      simp only [run, Products.ListSales, hs]
      exact ⟨[], _, _, _, Or.inl rfl, rfl, rfl, trivial⟩

/-! ## Store failures -/

/-- C4 (as amended): whenever the store call of a handler returns an error `e`,
the run contains exactly that one store call and no encode call, the response
writer is untouched, and the handler returns `e` wrapped once with its context
text, so the message is the context, a colon and the message of `e`.  The context
of `Get` is the text "getting product " followed by the id in quoted form. -/
theorem store_failure_surfaced_once {σ ω : Type} (env : Env σ ω) (h : HandlerName)
    (w : World σ ω) (r : Request) (op : StoreOp) (out : Payload) (e : Error)
    (hfail : Event.store op out (some e) ∈ (run env h w r).calls) :
    (run env h w r).calls.filter Event.isStore = [.store op out (some e)] ∧
    (run env h w r).calls.filter Event.isEncode = [] ∧
    (run env h w r).world.resp = w.resp ∧
    (run env h w r).result = .returned (some (.wrapped e (storeContext env.isPrint h r))) ∧
    (Error.wrapped e (storeContext env.isPrint h r)).text =
      storeContext env.isPrint h r ++ ": " ++ e.text := by
  rcases run_cases env h w r with ⟨t, e', _, hc, _⟩ | ⟨_, hc, _⟩ |
    ⟨pre, op', out', e', hpre, hc, hr, hw⟩ | ⟨pre, op', out', eerr, hpre, hc, _⟩
  · rw [hc] at hfail; simp at hfail
  · rw [hc] at hfail; simp at hfail
  · rw [hc] at hfail ⊢
    rw [hr, hw]
    rcases hpre with rfl | ⟨t, rfl⟩
    · simp at hfail
      obtain ⟨rfl, rfl, rfl⟩ := hfail
      simp [Event.isStore, Event.isEncode, Wrap, Error.text]
    · simp at hfail
      obtain ⟨rfl, rfl, rfl⟩ := hfail
      simp [Event.isStore, Event.isEncode, Wrap, Error.text]
  · rw [hc] at hfail
    rcases hpre with rfl | ⟨t, rfl⟩ <;> simp at hfail

/-- Witness for C4: `Get` of an unknown id in the sample world. -/
theorem store_failure_surfaced_once_witness :
    (run sampleEnv .Get sampleWorld (request "" "abc")).calls.filter Event.isStore =
        [.store (.Get "abc") (.product zeroProduct) (some ErrNotFound)] ∧
    (run sampleEnv .Get sampleWorld (request "" "abc")).calls.filter Event.isEncode = [] ∧
    (run sampleEnv .Get sampleWorld (request "" "abc")).world.resp = sampleWorld.resp ∧
    (run sampleEnv .Get sampleWorld (request "" "abc")).result =
      .returned (some (.wrapped ErrNotFound
        (storeContext sampleEnv.isPrint .Get (request "" "abc")))) ∧
    (Error.wrapped ErrNotFound (storeContext sampleEnv.isPrint .Get (request "" "abc"))).text =
      storeContext sampleEnv.isPrint .Get (request "" "abc") ++ ": " ++ ErrNotFound.text :=
  store_failure_surfaced_once sampleEnv .Get sampleWorld (request "" "abc") (.Get "abc")
    (.product zeroProduct) ErrNotFound (by decide)

/-- Counterexample for C4: for the id `abc` and a store that reports not-found,
`Get` returns the error with the message `getting product "abc": product not
found`; the text after "getting product " is the quoted id, so the returned
error is not the store's error wrapped with "getting product " followed by the
id. -/
theorem Get_context_is_quoted :
    Event.store (.Get "abc") (.product zeroProduct) (some ErrNotFound) ∈
      (run sampleEnv .Get sampleWorld (request "" "abc")).calls ∧
    (∃ err, (run sampleEnv .Get sampleWorld (request "" "abc")).result = .returned (some err) ∧
      err.text = "getting product \"abc\": product not found" ∧
      err.text ≠ plainStoreContext .Get (request "" "abc") ++ ": " ++ ErrNotFound.text) ∧
    plainStoreContext .Get (request "" "abc") = "getting product abc" ∧
    (run sampleEnv .Get sampleWorld (request "" "abc")).result ≠
      .returned (some (Wrap ErrNotFound (plainStoreContext .Get (request "" "abc")))) := by
  refine ⟨by decide, ⟨_, rfl, by decide, by decide⟩, by decide, by decide⟩

/-! ## Where a returned error comes from -/

/-- C5 (as amended): every error a handler returns is either the error of its
decode call wrapped once with the decode context, or the error of its store call
wrapped once with the store context, or the error of its encode call exactly as
the encoder returned it, with no context added. -/
theorem returned_error_origin {σ ω : Type} (env : Env σ ω) (h : HandlerName)
    (w : World σ ω) (r : Request) (err : Error)
    (hret : (run env h w r).result = .returned (some err)) :
    (∃ t e, Event.decode t (some e) ∈ (run env h w r).calls ∧
        err = .wrapped e (decodeContext h)) ∨
    (∃ op out e, Event.store op out (some e) ∈ (run env h w r).calls ∧
        err = .wrapped e (storeContext env.isPrint h r)) ∨
    (∃ v, Event.encode v (tableStatus h) (some err) ∈ (run env h w r).calls) := by
  rcases run_cases env h w r with ⟨t, e, _, hc, hr, _⟩ | ⟨_, _, hr, _⟩ |
    ⟨pre, op, out, e, _, hc, hr, _⟩ | ⟨pre, op, out, eerr, _, hc, hr⟩
  · left
    rw [hr] at hret
    injection hret with hret
    injection hret with hret
    exact ⟨t, e, by rw [hc]; simp, hret.symm⟩
  · rw [hr] at hret; cases hret
  · right; left
    rw [hr] at hret
    injection hret with hret
    injection hret with hret
    exact ⟨op, out, e, by rw [hc]; simp, hret.symm⟩
  · right; right
    rw [hr] at hret
    injection hret with hret
    subst hret
    exact ⟨out, by rw [hc]; simp⟩

/-- Witness for C5: `List` in the sample world whose client is gone. -/
theorem returned_error_origin_witness :
    (∃ t e, Event.decode t (some e) ∈ (run sampleEnv .List closedWorld (request "" "")).calls ∧
        Error.leaf "write: broken pipe" = .wrapped e (decodeContext .List)) ∨
    (∃ op out e,
        Event.store op out (some e) ∈ (run sampleEnv .List closedWorld (request "" "")).calls ∧
        Error.leaf "write: broken pipe" =
          .wrapped e (storeContext sampleEnv.isPrint .List (request "" ""))) ∨
    (∃ v, Event.encode v (tableStatus .List) (some (Error.leaf "write: broken pipe")) ∈
        (run sampleEnv .List closedWorld (request "" "")).calls) :=
  returned_error_origin sampleEnv .List closedWorld (request "" "")
    (.leaf "write: broken pipe") (by decide)

/-- Counterexample for C5: when the store lists the products and the encoder
fails, `List` returns the encoder's error itself; that error is not a wrapped
error at all. -/
theorem List_returns_encode_error_bare :
    (run sampleEnv .List closedWorld (request "" "")).calls =
      [.store .List (.products [widget]) none,
       .encode (.products [widget]) StatusOK (some (.leaf "write: broken pipe"))] ∧
    (run sampleEnv .List closedWorld (request "" "")).result =
      .returned (some (.leaf "write: broken pipe")) ∧
    ¬ ∃ e ctx, (run sampleEnv .List closedWorld (request "" "")).result =
      .returned (some (Wrap e ctx)) := by
  refine ⟨by decide, by decide, ?_⟩
  rintro ⟨e, ctx, hw⟩
  have hres : (run sampleEnv .List closedWorld (request "" "")).result =
      .returned (some (.leaf "write: broken pipe")) := by decide
  rw [hres] at hw
  injection hw with hw
  injection hw with hw
  cases hw

/-! ## Decode failures -/

/-- C6: when decoding the body returns an error `e` in `Create` or in `AddSale`,
the run consists of the decode call alone (no store call, no encode call), the
database and the response writer are as before, and the handler returns `e`
wrapped with "decoding new product" or "decoding new sale". -/
theorem decode_failure_skips_store {σ ω : Type} (env : Env σ ω) (h : HandlerName)
    (w : World σ ω) (r : Request) (e : Error)
    (hdec : (h = .Create ∧ (env.DecodeProduct r zeroProduct).2 = some e) ∨
      (h = .AddSale ∧ (env.DecodeReceiver r (some w.recv)).2 = some e)) :
    (∃ t, (run env h w r).calls = [.decode t (some e)]) ∧
    (run env h w r).calls.filter Event.isStore = [] ∧
    (run env h w r).calls.filter Event.isEncode = [] ∧
    (run env h w r).world.store = w.store ∧
    (run env h w r).world.resp = w.resp ∧
    (run env h w r).result = .returned (some (.wrapped e (decodeContext h))) := by
  rcases hdec with ⟨rfl, hd⟩ | ⟨rfl, hd⟩
  · rcases hd' : env.DecodeProduct r zeroProduct with ⟨p, e'⟩
    rw [hd'] at hd
    simp only at hd
    subst hd
    simp only [run, Products.Create, hd']
    exact ⟨⟨_, rfl⟩, rfl, rfl, trivial, trivial, rfl⟩
  · rcases hd' : env.DecodeReceiver r (some w.recv) with ⟨s, e'⟩
    rw [hd'] at hd
    simp only at hd
    subst hd
    simp only [run, Products.AddSale, hd']
    exact ⟨⟨_, rfl⟩, rfl, rfl, trivial, trivial, rfl⟩

/-- Witness for C6: `Create` with a body that is not JSON. -/
theorem decode_failure_skips_store_witness :
    (∃ t, (run sampleEnv .Create sampleWorld (request "oops" "")).calls =
      [.decode t (some (.leaf "invalid character"))]) ∧
    (run sampleEnv .Create sampleWorld (request "oops" "")).calls.filter Event.isStore = [] ∧
    (run sampleEnv .Create sampleWorld (request "oops" "")).calls.filter Event.isEncode = [] ∧
    (run sampleEnv .Create sampleWorld (request "oops" "")).world.store = sampleWorld.store ∧
    (run sampleEnv .Create sampleWorld (request "oops" "")).world.resp = sampleWorld.resp ∧
    (run sampleEnv .Create sampleWorld (request "oops" "")).result =
      .returned (some (.wrapped (.leaf "invalid character") "decoding new product")) :=
  decode_failure_skips_store sampleEnv .Create sampleWorld (request "oops" "")
    (.leaf "invalid character") (Or.inl ⟨rfl, by decide⟩)

/-! ## Success paths -/

/-- C7: on the success path of each handler (the decode, where there is one,
and the store call return no error) the run is the decode call, the one store
call and exactly one encode call; the value encoded is the value the store
operation returned, unchanged, and the status is 201 for `Create` and `AddSale`
and 200 for `List`, `Get` and `ListSales`; the database is the one the store
operation left, the response writer is the one the encoder left, and the handler
returns what the encoder returned.  In every run of every handler an encode call
has the status of the interface table and encodes the value of a successful store
call of that run. -/
theorem success_encodes_store_value {σ ω : Type} (env : Env σ ω) (w : World σ ω)
    (r : Request) :
    (∀ p st p', env.DecodeProduct r zeroProduct = (p, none) →
      env.storeCreate w.store r.ctx w.recv.db p = (st, p', none) →
      (Products.Create env w r).calls =
        [.decode .product none, .store (.Create p) (.product p') none,
         .encode (.product p') 201 (env.Encode w.resp (.product p') 201).2] ∧
      (Products.Create env w r).result = .returned (env.Encode w.resp (.product p') 201).2 ∧
      (Products.Create env w r).world.store = st ∧
      (Products.Create env w r).world.resp = (env.Encode w.resp (.product p') 201).1 ∧
      (Products.Create env w r).world.recv = w.recv) ∧
    (∀ st l, env.storeList w.store r.ctx w.recv.db = (st, l, none) →
      (Products.List env w r).calls =
        [.store .List (.products l) none,
         .encode (.products l) 200 (env.Encode w.resp (.products l) 200).2] ∧
      (Products.List env w r).result = .returned (env.Encode w.resp (.products l) 200).2 ∧
      (Products.List env w r).world.store = st ∧
      (Products.List env w r).world.resp = (env.Encode w.resp (.products l) 200).1 ∧
      (Products.List env w r).world.recv = w.recv) ∧
    (∀ st p, env.storeGet w.store r.ctx w.recv.db (URLParam r "id") = (st, p, none) →
      (Products.Get env w r).calls =
        [.store (.Get (URLParam r "id")) (.product p) none,
         .encode (.product p) 200 (env.Encode w.resp (.product p) 200).2] ∧
      (Products.Get env w r).result = .returned (env.Encode w.resp (.product p) 200).2 ∧
      (Products.Get env w r).world.store = st ∧
      (Products.Get env w r).world.resp = (env.Encode w.resp (.product p) 200).1 ∧
      (Products.Get env w r).world.recv = w.recv) ∧
    (∀ s st sale', env.DecodeReceiver r (some w.recv) = (some s, none) →
      env.storeAddSale w.store r.ctx s.db { zeroSale with ProductID := URLParam r "id" } =
        (st, sale', none) →
      (Products.AddSale env w r).calls =
        [.decode .receiver none,
         .store (.AddSale { zeroSale with ProductID := URLParam r "id" }) (.sale sale') none,
         .encode (.sale sale') 201 (env.Encode w.resp (.sale sale') 201).2] ∧
      (Products.AddSale env w r).result = .returned (env.Encode w.resp (.sale sale') 201).2 ∧
      (Products.AddSale env w r).world.store = st ∧
      (Products.AddSale env w r).world.resp = (env.Encode w.resp (.sale sale') 201).1 ∧
      (Products.AddSale env w r).world.recv = s) ∧
    (∀ st l, env.storeListSales w.store r.ctx w.recv.db (URLParam r "id") = (st, l, none) →
      (Products.ListSales env w r).calls =
        [.store (.ListSales (URLParam r "id")) (.sales l) none,
         .encode (.sales l) 200 (env.Encode w.resp (.sales l) 200).2] ∧
      (Products.ListSales env w r).result = .returned (env.Encode w.resp (.sales l) 200).2 ∧
      (Products.ListSales env w r).world.store = st ∧
      (Products.ListSales env w r).world.resp = (env.Encode w.resp (.sales l) 200).1 ∧
      (Products.ListSales env w r).world.recv = w.recv) ∧
    (∀ h v status e, Event.encode v status e ∈ (run env h w r).calls →
      status = (if h = .Create ∨ h = .AddSale then 201 else 200) ∧
      (run env h w r).calls.filter Event.isEncode = [.encode v status e] ∧
      ∃ op, (run env h w r).calls.filter Event.isStore = [.store op v none]) := by
  refine ⟨?_, ?_, ?_, ?_, ?_, ?_⟩
  · intro p st p' hd hs
    simp only [Products.Create, hd, hs, StatusCreated, and_self]
  · intro st l hs
    simp only [Products.List, hs, StatusOK, and_self]
  · intro st p hs
    simp only [Products.Get, hs, StatusOK, and_self]
  · intro s st sale' hd hs
    simp only [Products.AddSale, hd, hs, StatusCreated, and_self]
  · intro st l hs
    simp only [Products.ListSales, hs, StatusOK, and_self]
  · intro h v status e hmem
    have hstatus : tableStatus h = (if h = .Create ∨ h = .AddSale then 201 else 200) := by
      cases h <;> rfl
    rcases run_cases env h w r with ⟨t, e', _, hc, _⟩ | ⟨_, hc, _⟩ |
      ⟨pre, op', out', e', hpre, hc, _⟩ | ⟨pre, op', out', eerr, hpre, hc, _⟩
    · rw [hc] at hmem; simp at hmem
    · rw [hc] at hmem; simp at hmem
    · rw [hc] at hmem
      rcases hpre with rfl | ⟨t, rfl⟩ <;> simp at hmem
    · rw [hc] at hmem ⊢
      rcases hpre with rfl | ⟨t, rfl⟩
      · simp at hmem
        obtain ⟨rfl, rfl, rfl⟩ := hmem
        exact ⟨hstatus, by simp [Event.isEncode], op', by simp [Event.isStore]⟩
      · simp at hmem
        obtain ⟨rfl, rfl, rfl⟩ := hmem
        exact ⟨hstatus, by simp [Event.isEncode], op', by simp [Event.isStore]⟩

/-- Witness for C7: the five handlers on their success paths in the sample
world; each response writer ends with the store's value and the status of the
route. -/
theorem success_encodes_store_value_witness :
    ((Products.Create sampleEnv sampleWorld (request widgetBody "")).calls =
        [.decode .product none,
         .store (.Create { zeroProduct with Name := "widget", Cost := 10, Quantity := 5 })
           (.product { widget with ID := "p2" }) none,
         .encode (.product { widget with ID := "p2" }) 201 none] ∧
      (Products.Create sampleEnv sampleWorld (request widgetBody "")).world.store =
        { products := [widget, { widget with ID := "p2" }], sales := [] } ∧
      (Products.Create sampleEnv sampleWorld (request widgetBody "")).world.resp =
        { closed := false, written := [(.product { widget with ID := "p2" }, 201)] }) ∧
    ((Products.List sampleEnv sampleWorld (request "" "")).calls =
        [.store .List (.products [widget]) none, .encode (.products [widget]) 200 none] ∧
      (Products.List sampleEnv sampleWorld (request "" "")).world.resp =
        { closed := false, written := [(.products [widget], 200)] }) ∧
    ((Products.Get sampleEnv sampleWorld (request "" "p1")).calls =
        [.store (.Get "p1") (.product widget) none, .encode (.product widget) 200 none] ∧
      (Products.Get sampleEnv sampleWorld (request "" "p1")).world.resp =
        { closed := false, written := [(.product widget, 200)] }) ∧
    ((Products.AddSale sampleEnv sampleWorld (request saleBody "p1")).calls =
        [.decode .receiver none,
         .store (.AddSale { zeroSale with ProductID := "p1" })
           (.sale { zeroSale with ID := "s1", ProductID := "p1", DateCreated := 1 }) none,
         .encode (.sale { zeroSale with ID := "s1", ProductID := "p1", DateCreated := 1 })
           201 none] ∧
      (Products.AddSale sampleEnv sampleWorld (request saleBody "p1")).world.store =
        { products := [widget],
          sales := [{ zeroSale with ID := "s1", ProductID := "p1", DateCreated := 1 }] } ∧
      (Products.AddSale sampleEnv sampleWorld (request saleBody "p1")).world.resp =
        { closed := false,
          written := [(.sale { zeroSale with ID := "s1", ProductID := "p1", DateCreated := 1 },
            201)] }) ∧
    ((Products.ListSales sampleEnv sampleWorld (request "" "p1")).calls =
        [.store (.ListSales "p1") (.sales []) none, .encode (.sales []) 200 none] ∧
      (Products.ListSales sampleEnv sampleWorld (request "" "p1")).world.resp =
        { closed := false, written := [(.sales [], 200)] }) :=
  have hCreate := (success_encodes_store_value sampleEnv sampleWorld (request widgetBody "")).1
    { zeroProduct with Name := "widget", Cost := 10, Quantity := 5 }
    { products := [widget, { widget with ID := "p2" }], sales := [] }
    { widget with ID := "p2" } (by decide) (by decide)
  have hList := (success_encodes_store_value sampleEnv sampleWorld (request "" "")).2.1
    sampleWorld.store [widget] (by decide)
  have hGet := (success_encodes_store_value sampleEnv sampleWorld (request "" "p1")).2.2.1
    sampleWorld.store widget (by decide)
  have hAddSale := (success_encodes_store_value sampleEnv sampleWorld
    (request saleBody "p1")).2.2.2.1 (NewProducts 1 1)
    { products := [widget],
      sales := [{ zeroSale with ID := "s1", ProductID := "p1", DateCreated := 1 }] }
    { zeroSale with ID := "s1", ProductID := "p1", DateCreated := 1 } (by decide) (by decide)
  have hListSales := (success_encodes_store_value sampleEnv sampleWorld
    (request "" "p1")).2.2.2.2.1 sampleWorld.store [] (by decide)
  ⟨⟨hCreate.1, hCreate.2.2.1, hCreate.2.2.2.1⟩, ⟨hList.1, hList.2.2.2.1⟩,
    ⟨hGet.1, hGet.2.2.2.1⟩, ⟨hAddSale.1, hAddSale.2.2.1, hAddSale.2.2.2.1⟩,
    ⟨hListSales.1, hListSales.2.2.2.1⟩⟩

/-- C8: when the store returns the empty sequence and no error for the sales of
a product, `ListSales` makes the store call and one encode call of the empty
sequence with status 200: the response writer after the run is the one that
encode call left, the database is the one the store left, and the handler
returns what the encoder returned, so an error only if the encoder gave one.
`ListSales` returns an error of the store only when the store call returned one:
when the store returned none, whatever the sequence, an error that `ListSales`
returns is the encoder's; when the store returned an error, that error is
returned wrapped with "getting sales list" and nothing is encoded. -/
theorem ListSales_empty_is_success {σ ω : Type} (env : Env σ ω) (w : World σ ω)
    (r : Request) :
    (∀ st, env.storeListSales w.store r.ctx w.recv.db (URLParam r "id") = (st, [], none) →
      (Products.ListSales env w r).calls =
        [.store (.ListSales (URLParam r "id")) (.sales []) none,
         .encode (.sales []) 200 (env.Encode w.resp (.sales []) 200).2] ∧
      (Products.ListSales env w r).result = .returned (env.Encode w.resp (.sales []) 200).2 ∧
      (Products.ListSales env w r).world.resp = (env.Encode w.resp (.sales []) 200).1 ∧
      (Products.ListSales env w r).world.store = st ∧
      (Products.ListSales env w r).world.recv = w.recv ∧
      (∀ e, (Products.ListSales env w r).result = .returned (some e) →
        (env.Encode w.resp (.sales []) 200).2 = some e)) ∧
    (∀ st l e, env.storeListSales w.store r.ctx w.recv.db (URLParam r "id") = (st, l, none) →
      (Products.ListSales env w r).result = .returned (some e) →
      (env.Encode w.resp (.sales l) 200).2 = some e) ∧
    (∀ st l e, env.storeListSales w.store r.ctx w.recv.db (URLParam r "id") =
        (st, l, some e) →
      (Products.ListSales env w r).result = .returned (some (.wrapped e "getting sales list")) ∧
      (Products.ListSales env w r).calls =
        [.store (.ListSales (URLParam r "id")) (.sales l) (some e)] ∧
      (Products.ListSales env w r).world.resp = w.resp) := by
  have hgen : ∀ st l, env.storeListSales w.store r.ctx w.recv.db (URLParam r "id") =
      (st, l, none) →
      (Products.ListSales env w r).calls =
        [.store (.ListSales (URLParam r "id")) (.sales l) none,
         .encode (.sales l) 200 (env.Encode w.resp (.sales l) 200).2] ∧
      (Products.ListSales env w r).result = .returned (env.Encode w.resp (.sales l) 200).2 ∧
      (Products.ListSales env w r).world.resp = (env.Encode w.resp (.sales l) 200).1 ∧
      (Products.ListSales env w r).world.store = st ∧
      (Products.ListSales env w r).world.recv = w.recv := by
    intro st l hs
    simp only [Products.ListSales, hs, StatusOK, and_self]
  refine ⟨?_, ?_, ?_⟩
  · intro st hempty
    obtain ⟨h1, h2, h3, h4, h5⟩ := hgen st [] hempty
    refine ⟨h1, h2, h3, h4, h5, ?_⟩
    intro e he
    rw [h2] at he
    injection he
  · intro st l e hs he
    rw [(hgen st l hs).2.1] at he
    injection he
  · intro st l e hs
    simp only [Products.ListSales, hs, Wrap, and_self]

/-- Witness for C8: the sales of the widget in the sample world, which has none:
the response writer receives the empty sequence with status 200; and the same
request when the database is down: the store's error comes back wrapped and
nothing is written. -/
theorem ListSales_empty_is_success_witness :
    ((Products.ListSales sampleEnv sampleWorld (request "" "p1")).calls =
        [.store (.ListSales "p1") (.sales []) none, .encode (.sales []) 200 none] ∧
      (Products.ListSales sampleEnv sampleWorld (request "" "p1")).result = .returned none ∧
      (Products.ListSales sampleEnv sampleWorld (request "" "p1")).world.resp =
        { closed := false, written := [(.sales [], 200)] } ∧
      (Products.ListSales sampleEnv sampleWorld (request "" "p1")).world.store =
        sampleWorld.store) ∧
    ((Products.ListSales downEnv sampleWorld (request "" "p1")).result =
        .returned (some (.wrapped (.leaf "connection refused") "getting sales list")) ∧
      (Products.ListSales downEnv sampleWorld (request "" "p1")).calls =
        [.store (.ListSales "p1") (.sales []) (some (.leaf "connection refused"))] ∧
      (Products.ListSales downEnv sampleWorld (request "" "p1")).world.resp =
        sampleWorld.resp) :=
  have hrun := (ListSales_empty_is_success sampleEnv sampleWorld (request "" "p1")).1
    sampleWorld.store (by decide)
  have hdown := (ListSales_empty_is_success downEnv sampleWorld (request "" "p1")).2.2
    sampleWorld.store [] (.leaf "connection refused") (by decide)
  ⟨⟨hrun.1, hrun.2.1, hrun.2.2.1, hrun.2.2.2.1⟩, hdown⟩

/-! ## Not-found stays recognisable -/

/-- C3: when the store's get-by-id returns an error `e`, `Get` returns an error
that wraps `e` itself; its root cause is the root cause of `e`, so comparing the
cause with any sentinel (the not-found error in particular) answers the same on
the result of `Get` as on `e`, and when `e` is a bare sentinel the cause of the
result is `e`. -/
theorem Get_keeps_cause {σ ω : Type} (env : Env σ ω) (w : World σ ω) (r : Request)
    (st : σ) (p : Product) (e : Error)
    (hget : env.storeGet w.store r.ctx w.recv.db (URLParam r "id") = (st, p, some e)) :
    ∃ ctx, (Products.Get env w r).result = .returned (some (.wrapped e ctx)) ∧
      Cause (.wrapped e ctx) = Cause e ∧
      (∀ sentinel, decide (Cause (.wrapped e ctx) = sentinel) = decide (Cause e = sentinel)) ∧
      (∀ msg, e = .leaf msg → Cause (.wrapped e ctx) = e) := by
  refine ⟨"getting product " ++ Quote env.isPrint (URLParam r "id"), ?_, rfl, ?_, ?_⟩
  · simp only [Products.Get, hget, WrapfGettingProduct]
  · intro sentinel
    rfl
  · rintro msg rfl
    rfl

/-- Witness for C3: `Get` of an unknown id in the sample world, where the store
answers with its not-found sentinel. -/
theorem Get_keeps_cause_witness :
    ∃ ctx, (Products.Get sampleEnv sampleWorld (request "" "abc")).result =
        .returned (some (.wrapped ErrNotFound ctx)) ∧
      Cause (.wrapped ErrNotFound ctx) = Cause ErrNotFound ∧
      (∀ sentinel, decide (Cause (.wrapped ErrNotFound ctx) = sentinel) =
        decide (Cause ErrNotFound = sentinel)) ∧
      (∀ msg, ErrNotFound = .leaf msg → Cause (.wrapped ErrNotFound ctx) = ErrNotFound) :=
  Get_keeps_cause sampleEnv sampleWorld (request "" "abc") sampleWorld.store zeroProduct
    ErrNotFound (by decide)

/-! ## The product reference of a new sale -/

/-- C2: in every run of `AddSale`, whatever the body, a call of the store is the
add-sale call with a sale whose product reference is the path parameter `id`;
and when that call succeeds and the store left the product reference as it was,
the run encodes the completed sale once, with status 201 and with the path
parameter as product reference. -/
theorem AddSale_product_reference {σ ω : Type} (env : Env σ ω) (w : World σ ω) (r : Request)
    (op : StoreOp) (out : Payload) (err : Option Error)
    (hcall : Event.store op out err ∈ (Products.AddSale env w r).calls) :
    ∃ s s', op = .AddSale s ∧ out = .sale s' ∧ s.ProductID = URLParam r "id" ∧
      (err = none → s'.ProductID = s.ProductID →
        s'.ProductID = URLParam r "id" ∧
        ∃ eerr, (Products.AddSale env w r).calls.filter Event.isEncode =
          [.encode (.sale s') 201 eerr]) := by
  rcases hd : env.DecodeReceiver r (some w.recv) with ⟨_ | s, _ | e⟩
  · simp [Products.AddSale, hd] at hcall
  · simp [Products.AddSale, hd] at hcall
  · rcases hs : env.storeAddSale w.store r.ctx s.db
      { zeroSale with ProductID := URLParam r "id" } with ⟨st, sale', _ | e⟩
    · simp only [Products.AddSale, hd, hs] at hcall ⊢
      simp at hcall
      obtain ⟨rfl, rfl, rfl⟩ := hcall
      refine ⟨_, _, rfl, rfl, rfl, ?_⟩
      intro _ hsame
      exact ⟨hsame, _, rfl⟩
    · simp only [Products.AddSale, hd, hs] at hcall ⊢
      simp at hcall
      obtain ⟨rfl, rfl, rfl⟩ := hcall
      refine ⟨_, _, rfl, rfl, rfl, ?_⟩
      intro hnone
      cases hnone
  · simp [Products.AddSale, hd] at hcall

/-- Witness for C2: a sale for the widget in the sample world. -/
theorem AddSale_product_reference_witness :
    ∃ s s', StoreOp.AddSale { zeroSale with ProductID := "p1" } = .AddSale s ∧
      Payload.sale { zeroSale with ID := "s1", ProductID := "p1", DateCreated := 1 } = .sale s' ∧
      s.ProductID = URLParam (request saleBody "p1") "id" ∧
      ((none : Option Error) = none → s'.ProductID = s.ProductID →
        s'.ProductID = URLParam (request saleBody "p1") "id" ∧
        ∃ eerr, (Products.AddSale sampleEnv sampleWorld (request saleBody "p1")).calls.filter
          Event.isEncode = [.encode (.sale s') 201 eerr]) :=
  AddSale_product_reference sampleEnv sampleWorld (request saleBody "p1")
    (.AddSale { zeroSale with ProductID := "p1" })
    (.sale { zeroSale with ID := "s1", ProductID := "p1", DateCreated := 1 }) none (by decide)

/-! ## The route table -/

/-- C9: the handler set that `NewProducts` returns embeds a router holding
exactly the five bindings of the interface table, in that order; a method and
path pattern is served by a handler exactly when it is one of the five, so a
DELETE, PUT or PATCH has no handler, and the store handle and the logger are the
ones passed in. -/
theorem NewProducts_routes (db log : Nat) :
    (NewProducts db log).Handler = some
      [{ method := "POST", pattern := "/v1/products", handler := .Create },
       { method := "GET", pattern := "/v1/products", handler := .List },
       { method := "GET", pattern := "/v1/products/{id}", handler := .Get },
       { method := "POST", pattern := "/v1/products/{id}/sales", handler := .AddSale },
       { method := "GET", pattern := "/v1/products/{id}/sales", handler := .ListSales }] ∧
    (NewProducts db log).db = db ∧ (NewProducts db log).log = log ∧
    (∀ method pattern, (NewProducts db log).serves method pattern =
      if method = "POST" ∧ pattern = "/v1/products" then some .Create
      else if method = "GET" ∧ pattern = "/v1/products" then some .List
      else if method = "GET" ∧ pattern = "/v1/products/{id}" then some .Get
      else if method = "POST" ∧ pattern = "/v1/products/{id}/sales" then some .AddSale
      else if method = "GET" ∧ pattern = "/v1/products/{id}/sales" then some .ListSales
      else none) ∧
    (∀ pattern, (NewProducts db log).serves "DELETE" pattern = none ∧
      (NewProducts db log).serves "PUT" pattern = none ∧
      (NewProducts db log).serves "PATCH" pattern = none) := by
  have hserve : ∀ method pattern, (NewProducts db log).serves method pattern =
      if method = "POST" ∧ pattern = "/v1/products" then some .Create
      else if method = "GET" ∧ pattern = "/v1/products" then some .List
      else if method = "GET" ∧ pattern = "/v1/products/{id}" then some .Get
      else if method = "POST" ∧ pattern = "/v1/products/{id}/sales" then some .AddSale
      else if method = "GET" ∧ pattern = "/v1/products/{id}/sales" then some .ListSales
      else none := by
    intro method pattern
    simp only [NewProducts, Products.serves, Router.bound, NewRouter, Router.Post, Router.Get,
      List.nil_append, List.cons_append, List.find?_cons, List.find?_nil, Bool.and_eq_true,
      beq_iff_eq]
    by_cases h1 : "POST" = method ∧ "/v1/products" = pattern
    · obtain ⟨rfl, rfl⟩ := h1; simp
    by_cases h2 : "GET" = method ∧ "/v1/products" = pattern
    · obtain ⟨rfl, rfl⟩ := h2; simp
    by_cases h3 : "GET" = method ∧ "/v1/products/{id}" = pattern
    · obtain ⟨rfl, rfl⟩ := h3; simp
    by_cases h4 : "POST" = method ∧ "/v1/products/{id}/sales" = pattern
    · obtain ⟨rfl, rfl⟩ := h4; simp
    by_cases h5 : "GET" = method ∧ "/v1/products/{id}/sales" = pattern
    · obtain ⟨rfl, rfl⟩ := h5; simp
    have e1 : ¬ (method = "POST" ∧ pattern = "/v1/products") := fun h => h1 ⟨h.1.symm, h.2.symm⟩
    have e2 : ¬ (method = "GET" ∧ pattern = "/v1/products") := fun h => h2 ⟨h.1.symm, h.2.symm⟩
    have e3 : ¬ (method = "GET" ∧ pattern = "/v1/products/{id}") :=
      fun h => h3 ⟨h.1.symm, h.2.symm⟩
    have e4 : ¬ (method = "POST" ∧ pattern = "/v1/products/{id}/sales") :=
      fun h => h4 ⟨h.1.symm, h.2.symm⟩
    have e5 : ¬ (method = "GET" ∧ pattern = "/v1/products/{id}/sales") :=
      fun h => h5 ⟨h.1.symm, h.2.symm⟩
    have b1 : ("POST" == method && "/v1/products" == pattern) = false := by simpa using h1
    have b2 : ("GET" == method && "/v1/products" == pattern) = false := by simpa using h2
    have b3 : ("GET" == method && "/v1/products/{id}" == pattern) = false := by simpa using h3
    have b4 : ("POST" == method && "/v1/products/{id}/sales" == pattern) = false := by
      simpa using h4
    have b5 : ("GET" == method && "/v1/products/{id}/sales" == pattern) = false := by
      simpa using h5
    simp [b1, b2, b3, b4, b5, e1, e2, e3, e4, e5]
  refine ⟨rfl, rfl, rfl, hserve, ?_⟩
  intro pattern
  refine ⟨?_, ?_, ?_⟩ <;> rw [hserve] <;> simp

/-! ## What `AddSale` decodes into -/

/-- C1 (the code diverges): the body of the request decodes to a sale with
quantity 2, yet the sale that `AddSale` hands to the store for it is the zero
sale with only the product reference set: the decode call was given the
receiver, and the quantity of the body never reaches the store or the
response. -/
theorem AddSale_drops_decoded_sale :
    sampleEnv.DecodeSale (request saleBody "p1") zeroSale =
      ({ zeroSale with Quantity := 2 }, none) ∧
    (Products.AddSale sampleEnv sampleWorld (request saleBody "p1")).calls =
      [.decode .receiver none,
       .store (.AddSale { zeroSale with ProductID := "p1" })
         (.sale { zeroSale with ID := "s1", ProductID := "p1", DateCreated := 1 }) none,
       .encode (.sale { zeroSale with ID := "s1", ProductID := "p1", DateCreated := 1 })
         201 none] ∧
    ({ zeroSale with ProductID := "p1" } : Sale).Quantity = 0 ∧
    ({ zeroSale with ProductID := "p1" } : Sale) ≠
      { zeroSale with Quantity := 2, ProductID := "p1" } := by
  refine ⟨by decide, by decide, by decide, by decide⟩

/-- C10 (the code diverges): the decode call of `AddSale` has the handler
receiver as its target.  With a body that sets the embedded handler to null the
shared `Products` value is changed by the request: the router is gone, and the
handler set no longer serves any route. -/
theorem AddSale_writes_receiver :
    sampleWorld.recv = NewProducts 1 1 ∧
    sampleWorld.recv.serves "GET" "/v1/products" = some .List ∧
    (Products.AddSale sampleEnv sampleWorld (request handlerNullBody "p1")).calls.head? =
      some (.decode .receiver none) ∧
    (Products.AddSale sampleEnv sampleWorld (request handlerNullBody "p1")).world.recv =
      { db := 1, log := 1, Handler := none } ∧
    (Products.AddSale sampleEnv sampleWorld (request handlerNullBody "p1")).world.recv ≠
      sampleWorld.recv ∧
    (Products.AddSale sampleEnv sampleWorld (request handlerNullBody "p1")).world.recv.serves
      "GET" "/v1/products" = none := by
  refine ⟨rfl, by decide, by decide, by decide, by decide, by decide⟩

/-- Every handler other than `AddSale` leaves the shared handler set as it was. -/
theorem receiver_kept_outside_AddSale {σ ω : Type} (env : Env σ ω) (h : HandlerName)
    (w : World σ ω) (r : Request) (hne : h ≠ .AddSale) :
    (run env h w r).world.recv = w.recv := by
  cases h
  · rcases hd : env.DecodeProduct r zeroProduct with ⟨p, _ | e⟩
    · rcases hs : env.storeCreate w.store r.ctx w.recv.db p with ⟨st, p', _ | e⟩ <;>
        simp only [run, Products.Create, hd, hs]
    · simp only [run, Products.Create, hd]
  · rcases hs : env.storeList w.store r.ctx w.recv.db with ⟨st, l, _ | e⟩ <;>
      simp only [run, Products.List, hs]
  · rcases hs : env.storeGet w.store r.ctx w.recv.db (URLParam r "id") with ⟨st, p, _ | e⟩ <;>
      simp only [run, Products.Get, hs]
  · exact absurd rfl hne
  · rcases hs : env.storeListSales w.store r.ctx w.recv.db (URLParam r "id") with
      ⟨st, l, _ | e⟩ <;> simp only [run, Products.ListSales, hs]

/-- Whatever the codec and the body, the sale that `AddSale` hands to the store
is the zero sale with the product reference set from the path parameter. -/
theorem AddSale_store_argument {σ ω : Type} (env : Env σ ω) (w : World σ ω) (r : Request)
    (op : StoreOp) (out : Payload) (err : Option Error)
    (hcall : Event.store op out err ∈ (Products.AddSale env w r).calls) :
    op = .AddSale { zeroSale with ProductID := URLParam r "id" } := by
  rcases hd : env.DecodeReceiver r (some w.recv) with ⟨_ | s, _ | e⟩
  · simp [Products.AddSale, hd] at hcall
  · simp [Products.AddSale, hd] at hcall
  · rcases hs : env.storeAddSale w.store r.ctx s.db
      { zeroSale with ProductID := URLParam r "id" } with ⟨st, sale', _ | e⟩
    · simp only [Products.AddSale, hd, hs] at hcall
      simp at hcall
      exact hcall.1
    · simp only [Products.AddSale, hd, hs] at hcall
      simp at hcall
      exact hcall.1
  · simp [Products.AddSale, hd] at hcall

end Handlers
